import Mathlib

/-!
Verification of the soup interpreter (a Scheme-like tree-walking
interpreter written in Go) against its natural-language specification.

The development shallowly embeds the relevant source files:

* the lexer (lexer/lexer.go): token types, the sign/number/identifier
  disambiguation in NextToken, and the multi-line string scanner;
* the evaluator (evaluator/evaluator.go together with the builtin
  catalogue registered by initGlobalEnvironment): a heap-based value
  model in which every Go *ReturnValue cell is an address into an
  explicit store, so that in-place mutation (set-car!, set-cdr!,
  promise memoization, environment update) and pointer identity (eq?)
  are represented faithfully;
* the stack-trace machinery (evaluator/stacktrace.go) and the error
  printer of cli/soup/main.go.

Go while-loops are translated into structural recursion (on an
explicit list of remaining input lines, or on a fuel parameter for the
mutually recursive evaluator); machine numbers are modelled as Int
(for int64 payloads) and Rat (for float64 payloads -- exact for every
arithmetic operation exercised in this development).
-/

namespace Soup

/-! ## Lexer (lexer/lexer.go) -/

/-- Token kinds, mirroring the TokenType constants of the Go lexer. -/
inductive TokenType where
  | None | Invalid | EOF | Number | String | Identifier | Keyword
  | LeftParen | RightParen | Plus | Minus | Asterisk | Slash | Quote | Dot
  | If | Define | Lambda | Let | Begin | Set | Cond | Else | And | Or
  | True | False | Less | Greater | LessEqual | GreaterEqual
  deriving DecidableEq, Repr

/-- A token: content, 1-based line number, kind (struct Token). -/
structure Token where
  Content : String
  Line : Nat
  tokenType : TokenType
  deriving DecidableEq, Repr

/-- The lexer state.  The Go lexer pulls lines one at a time from a
bufio.Scanner; we model the scanner as the list of not-yet-delivered
lines (each line stripped of its terminator, exactly as scanner.Text
returns it). -/
structure Lexer where
  pending : List (List Char)
  line : List Char
  lineNo : Nat
  column : Nat
  deriving DecidableEq, Repr

/-- Build the lexer exactly as lexer.New does: no current line yet,
lineNo 0, column 0. -/
def mkLexer (lines : List String) : Lexer :=
  { pending := lines.map String.toList, line := [], lineNo := 0, column := 0 }

/-- isDigit from the Go source. -/
def isDigit (c : Char) : Bool := '0' ≤ c && c ≤ '9'

/-- isAlphabet from the Go source. -/
def isAlphabet (c : Char) : Bool :=
  ('a' ≤ c && c ≤ 'z') || ('A' ≤ c && c ≤ 'Z')

/-- isSpaceOrNewline from the Go source. -/
def isSpaceOrNewline (c : Char) : Bool :=
  c = ' ' || c = '\n' || c = '\r' || c = '\t'

/-- Length of the maximal prefix of cs whose characters satisfy p.
Helper for translating the lexer's column-advancing while loops. -/
def countLeading (p : Char → Bool) : List Char → Nat
  | [] => 0
  | c :: rest => if p c then countLeading p rest + 1 else 0

/-- Net effect of a Go loop of the shape
for col < len(line) and p(line[col]) do col++:
the column after the loop. -/
def advanceWhile (p : Char → Bool) (line : List Char) (col : Nat) : Nat :=
  col + countLeading p (line.drop col)

/-- The substring line[start:col] of a Go string slice expression. -/
def lineSlice (line : List Char) (start col : Nat) : String :=
  String.mk ((line.take col).drop start)

/-- readNextLine: pull the next line from the scanner; false (none)
when the input is exhausted. -/
def readNextLine (l : Lexer) : Option Lexer :=
  match l.pending with
  | [] => none
  | nl :: rest =>
    some { pending := rest, line := nl, lineNo := l.lineNo + 1, column := 0 }

/-- The keyword table of the lexer (var keywordMap). -/
def keywordMap : List (String × TokenType) :=
  [("define", .Define), ("if", .If), ("lambda", .Lambda), ("let", .Let),
   ("begin", .Begin), ("set!", .Set), ("cond", .Cond), ("else", .Else),
   ("and", .And), ("or", .Or), ("true", .True), ("false", .False)]

/-- Keyword lookup used by readIdentifierOrKeyword: a keyword kind when
the content is in the table, Identifier otherwise. -/
def keywordLookup (content : String) : TokenType :=
  match keywordMap.find? (fun kv => kv.1 == content) with
  | some kv => kv.2
  | none => .Identifier

/-- Characters that end an identifier: whitespace and parentheses. -/
def isIdentChar (c : Char) : Bool :=
  !(isSpaceOrNewline c) && c != '(' && c != ')'

/-- readIdentifierOrKeyword: the token starts one column back (the
caller has already consumed its first character); scan to the next
delimiter and classify via the keyword table. -/
def readIdentifierOrKeyword (l : Lexer) : Token × Lexer :=
  let start := l.column - 1
  let col := advanceWhile isIdentChar l.line l.column
  let content := lineSlice l.line start col
  ({ Content := content, Line := l.lineNo, tokenType := keywordLookup content },
   { l with column := col })

/-- readNumber: scan digits, optionally a dot and more digits
(acceptDot), then require a delimiter or end of line after the number.
Returns the scanned slice (starting one column back, at the sign the
caller consumed, when there is one) or an error message. -/
def readNumber (l : Lexer) (acceptDot : Bool) : Except String (String × Lexer) :=
  let start := l.column - 1
  let col1 := advanceWhile isDigit l.line l.column
  let dotStep : Except String Nat :=
    match l.line.get? col1 with
    | some c =>
      if c = '.' then
        if acceptDot then .ok (advanceWhile isDigit l.line (col1 + 1))
        else .error "invalid character . in number"
      else .ok col1
    | none => .ok col1
  match dotStep with
  | .error msg => .error msg
  | .ok col2 =>
    match l.line.get? col2 with
    | some c =>
      if c != '(' && c != ')' && !(isSpaceOrNewline c) then
        .error ("invalid character " ++ String.mk [c] ++ " after number")
      else .ok (lineSlice l.line start col2, { l with column := col2 })
    | none => .ok (lineSlice l.line start col2, { l with column := col2 })

/-- readSharp: scan the atom after #; only #t/#true/#f/#false are
valid. -/
def readSharp (l : Lexer) : Except String (Token × Lexer) :=
  let start := l.column - 1
  let col := advanceWhile isIdentChar l.line l.column
  let content := lineSlice l.line start col
  if content = "#t" || content = "#true" then
    .ok ({ Content := content, Line := l.lineNo, tokenType := .True },
         { l with column := col })
  else if content = "#f" || content = "#false" then
    .ok ({ Content := content, Line := l.lineNo, tokenType := .False },
         { l with column := col })
  else
    .error ("invalid token after #: " ++ content)

/-- The body of readString translated line by line.  The Go loop
advances the column until it sees a closing quote, appending
line[start:column] to the accumulated content and pulling the next
line whenever the column reaches the end of the current line; the
accumulation appends nothing at a line join (scanner.Text strips the
terminator and the loop adds no separator).  An exhausted scanner is
the unterminated-string error (the error value carries the final lexer
state, whose lineNo the caller uses for the Invalid token). -/
def readStringGo (pending : List (List Char)) (line : List Char)
    (lineNo col start : Nat) (content : String) :
    Except Lexer (String × Lexer) :=
  let stop := advanceWhile (fun c => c != '"') line col
  if _h : stop < line.length then
    .ok (content ++ lineSlice line start stop,
         { pending := pending, line := line, lineNo := lineNo, column := stop + 1 })
  else
    let content := content ++ lineSlice line start stop
    match pending with
    | [] => .error { pending := [], line := line, lineNo := lineNo, column := line.length }
    | nl :: rest => readStringGo rest nl (lineNo + 1) 0 0 content

/-- readString: scan from the character after the opening quote. -/
def readString (l : Lexer) : Except Lexer (Token × Lexer) :=
  match readStringGo l.pending l.line l.lineNo l.column l.column "" with
  | .error lf => .error lf
  | .ok (content, lf) =>
    .ok ({ Content := content, Line := lf.lineNo, tokenType := .String }, lf)

/-- isLangDirective: the six characters at the current column read
"#lang ". -/
def isLangDirective (l : Lexer) : Bool :=
  (l.line.drop l.column).take 6 == "#lang ".toList

/-- The token-start search at the top of NextToken: skip whitespace,
comments (; to end of line) and #lang lines, pulling fresh lines as
needed.  Error carries the lexer at end of input (the EOF case). -/
def skipToToken (pending : List (List Char)) (line : List Char)
    (lineNo col : Nat) : Except Lexer Lexer :=
  let col := advanceWhile isSpaceOrNewline line col
  let l : Lexer := { pending := pending, line := line, lineNo := lineNo, column := col }
  match line.get? col with
  | some c =>
    if c = ';' || isLangDirective l then
      match pending with
      | [] => .error l
      | nl :: rest => skipToToken rest nl (lineNo + 1) 0
    else .ok l
  | none =>
    match pending with
    | [] => .error l
    | nl :: rest => skipToToken rest nl (lineNo + 1) 0

/-- The token-scanning switch of NextToken: the current character has
been identified as the start of a token (firstChar), the column is
advanced past it, and nextChar/hasNextChar look one character ahead on
the same line. -/
def scanToken (l0 : Lexer) : Token × Lexer :=
  match l0.line.get? l0.column with
  | none => ({ Content := "", Line := l0.lineNo, tokenType := .EOF }, l0)
  | some firstChar =>
    let l : Lexer := { l0 with column := l0.column + 1 }
    let nextChar? := l.line.get? l.column
    let hasNextChar := nextChar?.isSome
    let nextChar := nextChar?.getD (Char.ofNat 0)
    if firstChar = '(' then
      ({ Content := "(", Line := l.lineNo, tokenType := .LeftParen }, l)
    else if firstChar = ')' then
      ({ Content := ")", Line := l.lineNo, tokenType := .RightParen }, l)
    else if firstChar = '+' then
      if hasNextChar && !(isSpaceOrNewline nextChar) then
        if isDigit nextChar then
          match readNumber l true with
          | .error msg => ({ Content := msg, Line := l.lineNo, tokenType := .Invalid }, l)
          | .ok (n, l2) => ({ Content := n, Line := l2.lineNo, tokenType := .Number }, l2)
        else readIdentifierOrKeyword l
      else ({ Content := "+", Line := l.lineNo, tokenType := .Plus }, l)
    else if firstChar = '-' then
      if hasNextChar && !(isSpaceOrNewline nextChar) then
        if isDigit nextChar then
          match readNumber l true with
          | .error msg => ({ Content := msg, Line := l.lineNo, tokenType := .Invalid }, l)
          | .ok (n, l2) => ({ Content := n, Line := l2.lineNo, tokenType := .Number }, l2)
        else readIdentifierOrKeyword l
      else ({ Content := "-", Line := l.lineNo, tokenType := .Minus }, l)
    else if firstChar = '*' then
      if hasNextChar && !(isSpaceOrNewline nextChar) then readIdentifierOrKeyword l
      else ({ Content := "*", Line := l.lineNo, tokenType := .Asterisk }, l)
    else if firstChar = '/' then
      if hasNextChar && !(isSpaceOrNewline nextChar) then readIdentifierOrKeyword l
      else ({ Content := "/", Line := l.lineNo, tokenType := .Slash }, l)
    else if firstChar = '"' then
      match readString l with
      | .error lf =>
        ({ Content := "unterminated string", Line := lf.lineNo, tokenType := .Invalid }, lf)
      | .ok (tok, l2) => (tok, l2)
    else if firstChar = '\'' then
      ({ Content := "'", Line := l.lineNo, tokenType := .Quote }, l)
    else if firstChar = '<' then
      if l.line.get? l.column = some '=' then
        ({ Content := "<=", Line := l.lineNo, tokenType := .LessEqual },
         { l with column := l.column + 1 })
      else ({ Content := "<", Line := l.lineNo, tokenType := .Less }, l)
    else if firstChar = '>' then
      if l.line.get? l.column = some '=' then
        ({ Content := ">=", Line := l.lineNo, tokenType := .GreaterEqual },
         { l with column := l.column + 1 })
      else ({ Content := ">", Line := l.lineNo, tokenType := .Greater }, l)
    else if firstChar = '#' then
      match readSharp l with
      | .error msg => ({ Content := msg, Line := l.lineNo, tokenType := .Invalid }, l)
      | .ok (tok, l2) => (tok, l2)
    else if firstChar = '.' then
      if hasNextChar && !(isSpaceOrNewline nextChar) then
        if isDigit nextChar then
          match readNumber l false with
          | .error msg => ({ Content := msg, Line := l.lineNo, tokenType := .Invalid }, l)
          | .ok (n, l2) =>
            ({ Content := "." ++ n, Line := l2.lineNo, tokenType := .Number }, l2)
        else if isAlphabet nextChar then
          let (tok, l2) := readIdentifierOrKeyword l
          ({ Content := tok.Content, Line := l2.lineNo, tokenType := .Identifier }, l2)
        else
          ({ Content := "invalid character after .", Line := l.lineNo, tokenType := .Invalid }, l)
      else ({ Content := ".", Line := l.lineNo, tokenType := .Dot }, l)
    else if isDigit firstChar then
      match readNumber l true with
      | .error msg => ({ Content := msg, Line := l.lineNo, tokenType := .Invalid }, l)
      | .ok (n, l2) => ({ Content := n, Line := l2.lineNo, tokenType := .Number }, l2)
    else readIdentifierOrKeyword l

/-- NextToken: find the next token start, then scan it; EOF when the
input runs out during the search. -/
def nextToken (l : Lexer) : Token × Lexer :=
  match skipToToken l.pending l.line l.lineNo l.column with
  | .error lf => ({ Content := "", Line := lf.lineNo, tokenType := .EOF }, lf)
  | .ok l2 => scanToken l2

/-! ### Lexer lemmas -/

theorem advanceWhile_ge (p : Char → Bool) (line : List Char) (col : Nat) :
    col ≤ advanceWhile p line col :=
  Nat.le_add_right col _

theorem take_drop_cons (line : List Char) (i j : Nat) (c : Char)
    (h : line.get? i = some c) (hij : i < j) :
    (line.take j).drop i = c :: ((line.take j).drop (i + 1)) := by
  have hlen : i < line.length := by
    rcases List.get?_eq_some.mp h with ⟨hl, _⟩
    exact hl
  have htlen : i < (line.take j).length := by
    simp [List.length_take]
    omega
  rw [List.drop_eq_getElem_cons htlen]
  congr 1
  rw [List.getElem_take]
  simp [List.get?_eq_getElem?] at h
  exact (List.getElem?_eq_some.mp h).2

theorem isDigit_not_space (c : Char) (h : isDigit c = true) :
    isSpaceOrNewline c = false := by
  simp only [isDigit, Bool.and_eq_true, decide_eq_true_eq] at h
  obtain ⟨h1, h2⟩ := h
  have hne : ∀ x : Char, x < '0' → ¬(c = x) := by
    intro x hx he
    subst he
    exact absurd h1 (not_le.mpr hx)
  have h3 := hne ' ' (by decide)
  have h4 := hne '\n' (by decide)
  have h5 := hne '\r' (by decide)
  have h6 := hne '\t' (by decide)
  simp [isSpaceOrNewline, h3, h4, h5, h6]

/-- No keyword of the lexer starts with a sign character, so an
identifier scanned from a + or - is always classified Identifier. -/
theorem keywordLookup_sign (c : Char) (cs : List Char) (hc : c = '+' ∨ c = '-') :
    keywordLookup (String.mk (c :: cs)) = .Identifier := by
  have hnone : keywordMap.find? (fun kv => kv.1 == String.mk (c :: cs)) = none := by
    rw [List.find?_eq_none]
    intro kv hkv
    have hne : kv.1 ≠ String.mk (c :: cs) := by
      intro he
      have hdata : kv.1.data = c :: cs := by rw [he]
      rcases hc with h | h <;> subst h <;> fin_cases hkv <;> simp_all
    simp [hne]
  simp [keywordLookup, hnone]

/-- C7, counterexample.  The claim says a parenthesis after the sign
yields the bare Plus operator token; on the input +( the lexer
instead scans an identifier (NextToken checks only for whitespace
after the sign, not for parentheses), producing an Identifier token
whose content is + -- not a Plus token. -/
theorem C7_counterexample :
    (nextToken (mkLexer ["+("])).1 =
      { Content := "+", Line := 1, tokenType := TokenType.Identifier } ∧
    TokenType.Identifier ≠ TokenType.Plus := by
  exact ⟨rfl, by decide⟩

/-- C7, amended.  When the lexer reads a + or - character: if the next
character on the line is a digit it scans a signed number token (an
Invalid token when the number scan reports an error); otherwise, if a
next character exists on the line and is not whitespace -- parentheses
included -- it scans a token that is always classified Identifier and
begins with the sign; only when the next character is absent or
whitespace does it emit the bare one-character Plus or Minus operator
token. -/
theorem C7_theorem (l : Lexer) (sign : Char)
    (hsign : sign = '+' ∨ sign = '-')
    (hcur : l.line.get? l.column = some sign) :
    (∀ d, l.line.get? (l.column + 1) = some d → isDigit d = true →
      (∀ n l2, readNumber { l with column := l.column + 1 } true = .ok (n, l2) →
        scanToken l = ({ Content := n, Line := l2.lineNo, tokenType := .Number }, l2)) ∧
      (∀ msg, readNumber { l with column := l.column + 1 } true = .error msg →
        scanToken l = ({ Content := msg, Line := l.lineNo, tokenType := .Invalid },
          { l with column := l.column + 1 }))) ∧
    (∀ d, l.line.get? (l.column + 1) = some d → isSpaceOrNewline d = false →
      isDigit d = false →
      scanToken l = readIdentifierOrKeyword { l with column := l.column + 1 } ∧
      (scanToken l).1.tokenType = TokenType.Identifier) ∧
    ((l.line.get? (l.column + 1) = none ∨
      (∃ d, l.line.get? (l.column + 1) = some d ∧ isSpaceOrNewline d = true)) →
      scanToken l =
        ({ Content := String.mk [sign], Line := l.lineNo,
           tokenType := if sign = '+' then .Plus else .Minus },
         { l with column := l.column + 1 })) := by
  have hcur2 := hcur
  simp only [List.get?_eq_getElem?] at hcur2
  refine ⟨?_, ?_, ?_⟩
  · intro d hd hdig
    simp only [List.get?_eq_getElem?] at hd
    constructor
    · intro n l2 hnum
      rcases hsign with h | h <;> subst h <;>
        simp [scanToken, hcur2, hd, hdig, hnum, isDigit_not_space d hdig]
    · intro msg hnum
      rcases hsign with h | h <;> subst h <;>
        simp [scanToken, hcur2, hd, hdig, hnum, isDigit_not_space d hdig]
  · intro d hd hsp hdig
    simp only [List.get?_eq_getElem?] at hd
    have hexp : scanToken l = readIdentifierOrKeyword { l with column := l.column + 1 } := by
      rcases hsign with h | h <;> subst h <;>
        simp [scanToken, hcur2, hd, hsp, hdig]
    refine ⟨hexp, ?_⟩
    rw [hexp]
    have hstart : l.column + 1 - 1 = l.column := rfl
    have hcol : l.column < advanceWhile isIdentChar l.line (l.column + 1) :=
      Nat.lt_of_lt_of_le (Nat.lt_succ_self _) (advanceWhile_ge _ _ _)
    simp only [readIdentifierOrKeyword, hstart, lineSlice]
    rw [take_drop_cons l.line l.column _ sign hcur hcol]
    exact keywordLookup_sign sign _ hsign
  · intro hd
    rcases hd with hnone | ⟨d, hd, hsp⟩
    · simp only [List.get?_eq_getElem?] at hnone
      rcases hsign with h | h <;> subst h <;> simp [scanToken, hcur2, hnone]
    · simp only [List.get?_eq_getElem?] at hd
      rcases hsign with h | h <;> subst h <;> simp [scanToken, hcur2, hd, hsp]

/-- C7, witness: the three branches of the amended claim at concrete
inputs +1, +a and a bare + at end of line. -/
theorem C7_witness :
    (scanToken { pending := [], line := ['+', '1'], lineNo := 1, column := 0 } =
      ({ Content := "+1", Line := 1, tokenType := TokenType.Number },
       { pending := [], line := ['+', '1'], lineNo := 1, column := 2 })) ∧
    ((scanToken { pending := [], line := ['+', 'a'], lineNo := 1, column := 0 }).1.tokenType =
      TokenType.Identifier) ∧
    (scanToken { pending := [], line := ['+'], lineNo := 1, column := 0 } =
      ({ Content := "+", Line := 1, tokenType := TokenType.Plus },
       { pending := [], line := ['+'], lineNo := 1, column := 1 })) := by
  have h1 := C7_theorem { pending := [], line := ['+', '1'], lineNo := 1, column := 0 }
    '+' (Or.inl rfl) rfl
  have h2 := C7_theorem { pending := [], line := ['+', 'a'], lineNo := 1, column := 0 }
    '+' (Or.inl rfl) rfl
  have h3 := C7_theorem { pending := [], line := ['+'], lineNo := 1, column := 0 }
    '+' (Or.inl rfl) rfl
  refine ⟨(h1.1 '1' rfl rfl).1 "+1" _ rfl, (h2.2.1 'a' rfl rfl rfl).2, ?_⟩
  exact h3.2.2 (Or.inl rfl)

/-- C8: a string literal spanning two input lines produces a single
String token, but the accumulated content is the plain concatenation
of the per-line fragments -- the line terminator is NOT included at
the join (the scanner strips it and readString appends nothing),
contradicting both the specification and the source comment
include newline in string.  The unterminated-string half of the claim
does hold: a missing closing quote before EOF yields an Invalid
token. -/
theorem C8_theorem :
    (nextToken (mkLexer ["\"ab", "cd\""])).1 =
      { Content := "abcd", Line := 2, tokenType := TokenType.String } ∧
    "abcd".toList.contains '\n' = false ∧
    (nextToken (mkLexer ["\"ab"])).1.tokenType = TokenType.Invalid := by
  exact ⟨rfl, by decide, rfl⟩

/-! ## Value model (evaluator/stacktrace.go value section, part of the
evaluator package: ValueType, ReturnValue, Number, ConstantValue,
ListValue, ConsValue, PromiseValue) -/

/-- The Number union: an int64 or a float64 payload.  Float64 values
are modelled as exact rationals; every float operation exercised by
the claims (addition and comparison of small integers) is exact in
binary64, so the model agrees with Go on those inputs.  Equality of
two GoNum values is Go equality of the Number struct: payloads of
different dynamic type (int64 vs float64) are never equal. -/
inductive GoNum where
  | i64 (v : Int)
  | f64 (v : Rat)
  deriving DecidableEq, Repr

/-- Number.isInt64. -/
def GoNum.isInt64 : GoNum → Bool
  | .i64 _ => true
  | .f64 _ => false

/-- Number.Float64: the int64 payload converted, or the float payload. -/
def GoNum.Float64 : GoNum → Rat
  | .i64 v => (v : Rat)
  | .f64 v => v

/-- MakeInt64Number. -/
def MakeInt64Number (v : Int) : GoNum := .i64 v

/-- MakeFloat64Number. -/
def MakeFloat64Number (v : Rat) : GoNum := .f64 v

/-- ConstantValue: Void, True, False. -/
inductive ConstantValue where
  | VoidConst | TrueValue | FalseValue
  deriving DecidableEq, Repr

/-- The parsed expression variants the evaluator dispatches on
(parser package AST).  Each constructor carries the line of its origin
token (Token() in Go).  numberLit carries the already-parsed Number:
the Go evaluator parses the literal text with strconv.ParseInt
(int64 when the text fits) falling back to ParseFloat; the claims only
exercise integer literals, which parse to their integer value. -/
inductive Expr where
  | numberLit (n : GoNum) (line : Nat)
  | stringLit (s : String) (line : Nat)
  | symbolExpr (s : String) (line : Nat)
  | trueLiteral
  | falseLiteral
  | voidLiteral
  | identifier (name : String) (line : Nat)
  | primitive (name : String) (line : Nat)
  | callExpr (op : Expr) (operands : List Expr) (line : Nat)
  | ifExpr (pred : Expr) (conseq : Expr) (alt : Option Expr) (line : Nat)
  | lambdaExpr (params : List String) (optTail : String) (body : List Expr) (line : Nat)
  | defineExpr (name : String) (value : Expr) (line : Nat)
  | setExpr (name : String) (value : Expr) (line : Nat)
  | listExpr (elems : List Expr) (line : Nat)
  | beginExpr (exprs : List Expr) (line : Nat)

/-- The line of an expression's origin token (Expression.Token().Line).
The three literal singletons carry no token in Go (voidExpression's
Token panics); 0 stands in for them. -/
def exprLine : Expr → Nat
  | .numberLit _ line => line
  | .stringLit _ line => line
  | .symbolExpr _ line => line
  | .trueLiteral => 0
  | .falseLiteral => 0
  | .voidLiteral => 0
  | .identifier _ line => line
  | .primitive _ line => line
  | .callExpr _ _ line => line
  | .ifExpr _ _ _ line => line
  | .lambdaExpr _ _ _ line => line
  | .defineExpr _ _ line => line
  | .setExpr _ _ line => line
  | .listExpr _ line => line
  | .beginExpr _ line => line

/-- Expression.String() as the evaluator consumes it.  The evaluator
compares this string against the literals or and and, and uses it as
the stack-frame name of the called procedure.  Atoms print as their
name or literal exactly as in the Go source; every compound form
prints in Go as a parenthesized form beginning with the character (
(a ListExpression begins with a quote), so no compound form ever
equals or or and -- the model collapses the compound bodies, which no
theorem inspects, to a fixed parenthesized placeholder. -/
def exprString : Expr → String
  | .numberLit (.i64 v) _ => toString v
  | .numberLit (.f64 v) _ => toString v
  | .stringLit s _ => "\"" ++ s ++ "\""
  | .symbolExpr s _ => "'" ++ s
  | .trueLiteral => "true"
  | .falseLiteral => "false"
  | .voidLiteral => ""
  | .identifier name _ => name
  | .primitive name _ => name
  | _ => "(...)"

/-! ### Runtime errors and stack traces (evaluator/stacktrace.go) -/

/-- StackTraceElement: a line number and an identifier name. -/
structure StackTraceElement where
  lineNumber : Nat
  identifierName : String
  deriving DecidableEq, Repr

/-- RuntimeError: the preserved innermost message, the line recorded
by the most recent wrap, and the accumulated frames (outermost
last). -/
structure RuntimeError where
  rawErrorMessage : String
  lineNumber : Nat
  stackTrace : List StackTraceElement
  deriving DecidableEq, Repr

/-- An error propagating out of eval: either a plain Go error (a
fmt.Errorf value, carrying only its message), an already-wrapped
RuntimeError (distinguished by errors.As in the source), or fuel
exhaustion (an artifact of the fuel-indexed embedding; no theorem ever
passes through it). -/
inductive EvalError where
  | raw (msg : String)
  | runtime (e : RuntimeError)
  | outOfFuel
  deriving DecidableEq, Repr

/-- err.Error(): a RuntimeError reports its raw message. -/
def errMessage : EvalError → String
  | .raw msg => msg
  | .runtime e => e.rawErrorMessage
  | .outOfFuel => "out of fuel"

/-- newRuntimeError: when the propagating error already is a
RuntimeError, append ONE frame carrying the PREVIOUS error's recorded
line and the current procedure name, and record the current token's
line on the new error; otherwise (the innermost wrap of a plain error)
record the token line and start with an EMPTY stack trace -- no frame
is added at the innermost layer. -/
def newRuntimeError (err : EvalError) (tokenLine : Nat) (procedureName : String) :
    RuntimeError :=
  match err with
  | .runtime prev =>
    { rawErrorMessage := errMessage err
      lineNumber := tokenLine
      stackTrace := prev.stackTrace ++
        [{ lineNumber := prev.lineNumber, identifierName := procedureName }] }
  | _ =>
    { rawErrorMessage := errMessage err
      lineNumber := tokenLine
      stackTrace := [] }

/-- The runtime-error branch of printError in cli/soup/main.go: one
line per frame, outermost last, then the synthetic main line built
from the outermost recorded line number. -/
def printStackTrace (re : RuntimeError) : List String :=
  re.stackTrace.map
    (fun e => "\t at " ++ e.identifierName ++ " (line " ++ toString e.lineNumber ++ ")") ++
  ["\t at main (line " ++ toString re.lineNumber ++ ")"]

/-- Runtime value payloads.  A Go *ReturnValue is an address (plain
Nat) into the value store of the interpreter state; the payload held
at an address is one of these.  List elements, cons fields and a
promise's memo hold addresses, exactly as the Go payloads hold
*ReturnValue pointers. -/
inductive ValueData where
  | num (n : GoNum)
  | str (s : String)
  | sym (s : String)
  | const (c : ConstantValue)
  | proc (params : List String) (optTail : String) (body : List Expr) (env : Nat)
  | builtin (name : String)
  | list (elems : List Nat)
  | cons (car cdr : Nat)
  | promise (expression : Expr) (env : Nat) (evaluatedValue : Option Nat)

/-- ValueType.String() of a payload, for error messages. -/
def typeName : ValueData → String
  | .num _ => "Number"
  | .str _ => "String"
  | .sym _ => "Symbol"
  | .const _ => "Constant"
  | .proc _ _ _ _ => "Procedure"
  | .builtin _ => "BuiltinFunction"
  | .list _ => "List"
  | .cons _ _ => "Cons"
  | .promise _ _ _ => "Promise"

/-- An environment frame: the name-to-address map (a Go map modelled
as an association list with replace-on-put) and the optional enclosing
frame, itself an index into the environment store. -/
structure EnvData where
  store : List (String × Nat)
  enclosing : Option Nat

/-- The interpreter state: the store of ReturnValue cells (the Go
heap reachable from the evaluator), the store of environment frames,
and the procedure-name stack of the Evaluator struct. -/
structure EvalState where
  values : List ValueData
  envs : List EnvData
  procedureNames : List String

/-! ### Heap, environment and procedure-name-stack operations -/

/-- Dereference a value address. -/
def cellAt (s : EvalState) (a : Nat) : Option ValueData :=
  s.values.get? a

/-- Overwrite the payload at an address in place (the effect of an
assignment through a *ReturnValue pointer). -/
def updateCell (s : EvalState) (a : Nat) (v : ValueData) : EvalState :=
  { s with values := s.values.set a v }

/-- Allocate a fresh cell (a Go address-of-composite-literal). -/
def alloc (s : EvalState) (v : ValueData) : Nat × EvalState :=
  (s.values.length, { s with values := s.values ++ [v] })

/-- Allocate and return the fresh address as a successful result. -/
def allocOk (s : EvalState) (v : ValueData) : Except EvalError Nat × EvalState :=
  let (a, s1) := alloc s v
  (.ok a, s1)

/-- map lookup in one frame store. -/
def storeGet (st : List (String × Nat)) (k : String) : Option Nat :=
  match st.find? (fun kv => kv.1 == k) with
  | some kv => some kv.2
  | none => none

/-- map assignment in one frame store. -/
def storePut : List (String × Nat) → String → Nat → List (String × Nat)
  | [], k, a => [(k, a)]
  | kv :: rest, k, a => if kv.1 == k then (k, a) :: rest else kv :: storePut rest k a

/-- Environment.Get: look the key up in the frame, walking enclosing
frames.  The fuel bounds the chain walk (frames created by the
evaluator always enclose earlier frames, so envs.length + 1 fuel is
always enough). -/
def envGet : Nat → List EnvData → Nat → String → Option Nat
  | 0, _, _, _ => none
  | fuel + 1, envs, envId, k =>
    match envs.get? envId with
    | none => none
    | some env =>
      match storeGet env.store k with
      | some a => some a
      | none =>
        match env.enclosing with
        | some up => envGet fuel envs up k
        | none => none

/-- Environment.Update: find the frame that binds the key, overwrite
the binding there, and return the OLD address together with the
updated environment store; none when no frame up the chain binds the
key. -/
def envUpdate : Nat → List EnvData → Nat → String → Nat → Option (Nat × List EnvData)
  | 0, _, _, _, _ => none
  | fuel + 1, envs, envId, k, v =>
    match envs.get? envId with
    | none => none
    | some env =>
      match storeGet env.store k with
      | some old => some (old, envs.set envId { env with store := storePut env.store k v })
      | none =>
        match env.enclosing with
        | some up => envUpdate fuel envs up k v
        | none => none

/-- Environment.Put on the frame envId. -/
def envPut (s : EvalState) (envId : Nat) (k : String) (a : Nat) : EvalState :=
  match s.envs.get? envId with
  | some env =>
    { s with envs := s.envs.set envId { env with store := storePut env.store k a } }
  | none => s

/-- currentProcedureName (Go indexes the top of a never-empty stack;
Eval pushes main before evaluating anything). -/
def currentProcedureName (s : EvalState) : String :=
  (s.procedureNames.getLast?).getD ""

/-- pushProcedureName. -/
def pushProcedureName (s : EvalState) (n : String) : EvalState :=
  { s with procedureNames := s.procedureNames ++ [n] }

/-- popProcedureName: returns the popped name and the shrunk stack. -/
def popProcedureName (s : EvalState) : String × EvalState :=
  ((s.procedureNames.getLast?).getD "",
   { s with procedureNames := s.procedureNames.dropLast })

/-- The falsiness test the evaluator repeats verbatim:
operand.Type == ConstantType && operand.Data == FalseValue. -/
def isFalseCell (s : EvalState) (a : Nat) : Bool :=
  match cellAt s a with
  | some (.const .FalseValue) => true
  | _ => false

/-- val.Type == BuiltinFunctionType. -/
def isBuiltinCell (s : EvalState) (a : Nat) : Bool :=
  match cellAt s a with
  | some (.builtin _) => true
  | _ => false

/-! ## Builtin functions (the initGlobalEnvironment catalogue of the
builtin file holding force, read and the stream builtins -- the
version the evaluator tests exercise) -/

/-- The evaluator handle a Go builtin receives: eval partially applied
to the remaining fuel. -/
abbrev EvalFn := Expr → Nat → EvalState → Except EvalError Nat × EvalState

/-- The summation loop of the + builtin: res starts at float64(0) and
accumulates Float64() of every argument; the first non-number argument
aborts. -/
def plusSum (s : EvalState) : List Nat → Rat → Except String Rat
  | [], acc => .ok acc
  | p :: rest, acc =>
    match cellAt s p with
    | some (.num n) => plusSum s rest (acc + n.Float64)
    | some v => .error ("all arguments to + must be numbers, got " ++ typeName v)
    | none => .error "invalid value address"

/-- The + builtin: always returns MakeFloat64Number of the float64
sum -- including the empty argument list, whose sum is float64(0). -/
def plusFn (params : List Nat) (s : EvalState) : Except EvalError Nat × EvalState :=
  match plusSum s params 0 with
  | .error msg => (.error (.raw msg), s)
  | .ok res => allocOk s (.num (MakeFloat64Number res))

/-- The cons builtin: when the cdr argument is a List, build a new
List cell whose elements are the car followed by the cdr's elements
(the source special-cases the empty list, with the same outcome);
otherwise build a Cons cell. -/
def consFn (params : List Nat) (s : EvalState) : Except EvalError Nat × EvalState :=
  match params with
  | [car, cdr] =>
    match cellAt s cdr with
    | some (.list cdrElems) =>
      if cdrElems.isEmpty then allocOk s (.list [car])
      else allocOk s (.list (car :: cdrElems))
    | some _ => allocOk s (.cons car cdr)
    | none => (.error (.raw "invalid value address"), s)
  | _ =>
    (.error (.raw ("cons has been called with " ++ toString params.length ++
      " arguments; it requires exactly 2 arguments")), s)

/-- The list builtin: a fresh List cell of exactly the arguments. -/
def listFn (params : List Nat) (s : EvalState) : Except EvalError Nat × EvalState :=
  allocOk s (.list params)

/-- The eq? builtin: pointer equality first; otherwise, for equal
types: Number/String/Symbol payload equality, two EMPTY Lists are
equal, and the Cons case calls val1.Constant() -- which panics in Go
because the value is a Cons, not a Constant (modelled as an error).
Everything else compares unequal. -/
def eqFn (params : List Nat) (s : EvalState) : Except EvalError Nat × EvalState :=
  match params with
  | [v1, v2] =>
    if v1 = v2 then allocOk s (.const .TrueValue)
    else
      match cellAt s v1, cellAt s v2 with
      | some (.cons _ _), some (.cons _ _) =>
        (.error (.raw "panic: not a constant"), s)
      | some (.num n1), some (.num n2) =>
        if n1 = n2 then allocOk s (.const .TrueValue)
        else allocOk s (.const .FalseValue)
      | some (.str s1), some (.str s2) =>
        if s1 = s2 then allocOk s (.const .TrueValue)
        else allocOk s (.const .FalseValue)
      | some (.sym s1), some (.sym s2) =>
        if s1 = s2 then allocOk s (.const .TrueValue)
        else allocOk s (.const .FalseValue)
      | some (.list e1), some (.list e2) =>
        if e1.isEmpty && e2.isEmpty then allocOk s (.const .TrueValue)
        else allocOk s (.const .FalseValue)
      | _, _ => allocOk s (.const .FalseValue)
  | _ =>
    (.error (.raw ("eq? has been called with " ++ toString params.length ++
      " arguments; it requires exactly 2 arguments")), s)

/-- The set-car! builtin: overwrite the car of a Cons in place, or the
first element of a non-empty List in place; error on an empty List or
a non-pair. -/
def setCarFn (params : List Nat) (s : EvalState) : Except EvalError Nat × EvalState :=
  match params with
  | [container, carVal] =>
    match cellAt s container with
    | some (.cons _ cd) => allocOk (updateCell s container (.cons carVal cd)) (.const .VoidConst)
    | some (.list elems) =>
      match elems with
      | [] => (.error (.raw "cannot set-car! on an empty list"), s)
      | _ :: rest => allocOk (updateCell s container (.list (carVal :: rest))) (.const .VoidConst)
    | some _ =>
      (.error (.raw "first argument to set-car! must be a cons cell or a non-empty list"), s)
    | none => (.error (.raw "invalid value address"), s)
  | _ =>
    (.error (.raw ("set-car! has been called with " ++ toString params.length ++
      " arguments; it requires exactly 2 arguments")), s)

/-- The set-cdr! builtin: overwrite the cdr of a Cons in place; on a
non-empty List, rewrite THE SAME cell in place into a Cons whose car
is the list's first element and whose cdr is the second argument
(container.Type = ConsType; container.Data = cons); error on an empty
List or a non-pair. -/
def setCdrFn (params : List Nat) (s : EvalState) : Except EvalError Nat × EvalState :=
  match params with
  | [container, cdrVal] =>
    match cellAt s container with
    | some (.cons ca _) => allocOk (updateCell s container (.cons ca cdrVal)) (.const .VoidConst)
    | some (.list elems) =>
      match elems with
      | [] => (.error (.raw "cannot set-cdr! on an empty list"), s)
      | e0 :: _ => allocOk (updateCell s container (.cons e0 cdrVal)) (.const .VoidConst)
    | some _ =>
      (.error (.raw "first argument to set-cdr! must be a cons cell or a non-empty list"), s)
    | none => (.error (.raw "invalid value address"), s)
  | _ =>
    (.error (.raw ("set-cdr! has been called with " ++ toString params.length ++
      " arguments; it requires exactly 2 arguments")), s)

/-- isNull (the body of null? and stream-null?): #t exactly on an
empty List. -/
def nullFn (params : List Nat) (s : EvalState) : Except EvalError Nat × EvalState :=
  match params with
  | [v] =>
    match cellAt s v with
    | some (.list elems) =>
      if elems.isEmpty then allocOk s (.const .TrueValue)
      else allocOk s (.const .FalseValue)
    | some _ => allocOk s (.const .FalseValue)
    | none => (.error (.raw "invalid value address"), s)
  | _ =>
    (.error (.raw ("null? has been called with " ++ toString params.length ++
      " arguments; it requires exactly 1 argument")), s)

/-- The not builtin: #t exactly on the false constant. -/
def notFn (params : List Nat) (s : EvalState) : Except EvalError Nat × EvalState :=
  match params with
  | [v] =>
    if isFalseCell s v then allocOk s (.const .TrueValue)
    else allocOk s (.const .FalseValue)
  | _ =>
    (.error (.raw ("not has been called with " ++ toString params.length ++
      " arguments; it requires exactly 1 argument")), s)

/-- The loop of the and builtin body: return a fresh #f at the first
false argument, else remember the argument; res is returned after the
loop. -/
def andLoop : List Nat → EvalState → Nat → Except EvalError Nat × EvalState
  | [], s, res => (.ok res, s)
  | p :: rest, s, _ =>
    if isFalseCell s p then allocOk s (.const .FalseValue)
    else andLoop rest s p

/-- The and builtin body (the eager fallback; the evaluator's Call
case normally short-circuits before reaching it): res starts as a
fresh #t, ends as the last argument. -/
def andFn (params : List Nat) (s : EvalState) : Except EvalError Nat × EvalState :=
  let (t, s1) := alloc s (.const .TrueValue)
  andLoop params s1 t

/-- The or builtin body (the eager fallback): the first non-false
argument, else a fresh #f. -/
def orFn : List Nat → EvalState → Except EvalError Nat × EvalState
  | [], s => allocOk s (.const .FalseValue)
  | p :: rest, s =>
    if !(isFalseCell s p) then (.ok p, s)
    else orFn rest s

/-- getCar: car of a Cons, or the first element of a non-empty List. -/
def getCar (s : EvalState) (a : Nat) : Except String Nat :=
  match cellAt s a with
  | some (.cons ca _) => .ok ca
  | some (.list []) => .error "cannot call car on an empty list"
  | some (.list (e :: _)) => .ok e
  | some v => .error ("car expected cons or list value, got " ++ typeName v)
  | none => .error "invalid value address"

/-- getCdr: cdr of a Cons, or a FRESH List cell holding the tail
elements of a non-empty List. -/
def getCdr (s : EvalState) (a : Nat) : Except String (Nat × EvalState) :=
  match cellAt s a with
  | some (.cons _ cd) => .ok (cd, s)
  | some (.list []) => .error "cannot call cdr on an empty list"
  | some (.list (_ :: rest)) =>
    let (b, s1) := alloc s (.list rest)
    .ok (b, s1)
  | some v => .error ("cdr expected cons or list value, got " ++ typeName v)
  | none => .error "invalid value address"

/-- The two primitive accessor operations of ConProcedureFactory. -/
inductive ConOperation where
  | car | cdr

/-- The operation chain of a ConProcedureFactory builtin. -/
def conOps : List ConOperation → Nat → EvalState → Except String (Nat × EvalState)
  | [], a, s => .ok (a, s)
  | .car :: rest, a, s =>
    match getCar s a with
    | .error e => .error e
    | .ok b => conOps rest b s
  | .cdr :: rest, a, s =>
    match getCdr s a with
    | .error e => .error e
    | .ok (b, s1) => conOps rest b s1

/-- A ConProcedureFactory builtin (car, cdr and their compositions). -/
def conProcedure (ops : List ConOperation) (params : List Nat) (s : EvalState) :
    Except EvalError Nat × EvalState :=
  match params with
  | [a] =>
    match conOps ops a s with
    | .error msg => (.error (.raw msg), s)
    | .ok (b, s1) => (.ok b, s1)
  | _ =>
    (.error (.raw ("expected 1 argument, got " ++ toString params.length)), s)

/-- force: a non-Promise argument is an error; a Promise with a filled
memo returns the memoized address unchanged; a Promise with an empty
memo evaluates its captured expression in its captured environment,
writes the result into the memo slot of the SAME cell, and returns
it. -/
def forceGo (evalFn : EvalFn) (a : Nat) (s : EvalState) : Except EvalError Nat × EvalState :=
  match cellAt s a with
  | some (.promise e env memo) =>
    match memo with
    | some v => (.ok v, s)
    | none =>
      match evalFn e env s with
      | (.error err, s1) => (.error err, s1)
      | (.ok r, s1) => (.ok r, updateCell s1 a (.promise e env (some r)))
  | some v => (.error (.raw ("expected promise type, got " ++ typeName v)), s)
  | none => (.error (.raw "invalid value address"), s)

/-- The force builtin wrapper: arity 1, then force. -/
def forceFn (evalFn : EvalFn) (params : List Nat) (s : EvalState) :
    Except EvalError Nat × EvalState :=
  match params with
  | [a] => forceGo evalFn a s
  | _ =>
    (.error (.raw ("force has been called with " ++ toString params.length ++
      " arguments; it requires exactly 1 argument")), s)

/-- Dispatch on the registered builtin name (the claims exercise this
subset of the catalogue; the remaining builtins are not modelled). -/
def evalBuiltinFunction (evalFn : EvalFn) (name : String) (params : List Nat)
    (s : EvalState) : Except EvalError Nat × EvalState :=
  match name with
  | "+" => plusFn params s
  | "cons" => consFn params s
  | "list" => listFn params s
  | "eq?" => eqFn params s
  | "set-car!" => setCarFn params s
  | "set-cdr!" => setCdrFn params s
  | "null?" => nullFn params s
  | "not" => notFn params s
  | "and" => andFn params s
  | "or" => orFn params s
  | "car" => conProcedure [.car] params s
  | "cdr" => conProcedure [.cdr] params s
  | "force" => forceFn evalFn params s
  | other => (.error (.raw ("builtin not modelled: " ++ other)), s)

/-! ## The evaluator (evaluator/evaluator.go) -/

/-- Result of the operand loop inside evalCallExpression: an early
short-circuit return, or the vector of evaluated operands. -/
inductive LoopOut where
  | early (a : Nat)
  | done (vals : List Nat)

/-- The operand loop of evalCallExpression: evaluate operands left to
right; an error is wrapped with the operator token's line and the
current procedure name; when isOrFn, return the first operand whose
value is not the false constant; when isAndFn, return a FRESH false
constant at the first false operand; otherwise collect the value and
continue.  The remaining operand expressions are not touched after an
early return. -/
def evalOperandsLoop (evalFn : EvalFn) (isOrFn isAndFn : Bool) (opLine : Nat)
    (env : Nat) : List Expr → List Nat → EvalState → Except EvalError LoopOut × EvalState
  | [], acc, s => (.ok (.done acc), s)
  | opE :: rest, acc, s =>
    match evalFn opE env s with
    | (.error err, s1) =>
      (.error (.runtime (newRuntimeError err opLine (currentProcedureName s1))), s1)
    | (.ok operand, s1) =>
      if isOrFn && !(isFalseCell s1 operand) then (.ok (.early operand), s1)
      else if isAndFn && isFalseCell s1 operand then
        let (f, s2) := alloc s1 (.const .FalseValue)
        (.ok (.early f), s2)
      else evalOperandsLoop evalFn isOrFn isAndFn opLine env rest (acc ++ [operand]) s1

/-- The body loop of evalProcedure: evaluate the body forms in order
in the procedure frame and return the last value.  The Go code returns
a nil value for an empty body; the parser guarantees a non-empty body,
and the model makes the unreachable case an error. -/
def evalBodyLoop (evalFn : EvalFn) : List Expr → Nat → EvalState → Except EvalError Nat × EvalState
  | [], _, s => (.error (.raw "panic: empty procedure body"), s)
  | [e], env, s => evalFn e env s
  | e :: rest, env, s =>
    match evalFn e env s with
    | (.error err, s1) => (.error err, s1)
    | (.ok _, s1) => evalBodyLoop evalFn rest env s1

/-- evalProcedure: arity check (exact for fixed arity, at-least for a
rest parameter), a fresh frame enclosing the procedure's captured
environment (lexical scope), parameter binding, rest-parameter
bundling into a fresh List cell, then the body loop. -/
def evalProcedure (evalFn : EvalFn) (params : List String) (optTail : String)
    (body : List Expr) (penv : Nat) (operands : List Nat) (s : EvalState) :
    Except EvalError Nat × EvalState :=
  if optTail != "" then
    if params.length > operands.length then
      (.error (.raw ("expected at least " ++ toString params.length ++
        " arguments, got " ++ toString operands.length)), s)
    else
      let st0 := (params.zip operands).foldl (fun st kv => storePut st kv.1 kv.2) []
      let (tailCell, s1) := alloc s (.list (operands.drop params.length))
      let newEnvId := s1.envs.length
      let s2 := { s1 with envs := s1.envs ++
        [{ store := storePut st0 optTail tailCell, enclosing := some penv }] }
      evalBodyLoop evalFn body newEnvId s2
  else
    if params.length != operands.length then
      (.error (.raw ("expected " ++ toString params.length ++ " arguments, got " ++
        toString operands.length)), s)
    else
      let st0 := (params.zip operands).foldl (fun st kv => storePut st kv.1 kv.2) []
      let newEnvId := s.envs.length
      let s1 := { s with envs := s.envs ++ [{ store := st0, enclosing := some penv }] }
      evalBodyLoop evalFn body newEnvId s1

/-- evalCallExpression: evaluate the operator (errors wrapped with the
operator token and the current procedure name); detect the or/and
short-circuit by the operator's PRINTED STRING together with the value
being some builtin; run the operand loop; then dispatch on the
operator value -- a builtin or a procedure is applied with its name
pushed on the procedure-name stack (popped again on both the success
and the error path, the popped name naming the error frame), anything
else is the unsupported-operator error. -/
def evalCallExpression (evalFn : EvalFn) (operator : Expr) (operands : List Expr)
    (env : Nat) (s : EvalState) : Except EvalError Nat × EvalState :=
  match evalFn operator env s with
  | (.error err, s1) =>
    (.error (.runtime (newRuntimeError err (exprLine operator) (currentProcedureName s1))), s1)
  | (.ok val, s1) =>
    let isOrFn := isBuiltinCell s1 val && (exprString operator == "or")
    let isAndFn := isBuiltinCell s1 val && (exprString operator == "and")
    match evalOperandsLoop evalFn isOrFn isAndFn (exprLine operator) env operands [] s1 with
    | (.error err, s2) => (.error err, s2)
    | (.ok (.early a), s2) => (.ok a, s2)
    | (.ok (.done vals), s2) =>
      match cellAt s2 val with
      | some (.builtin name) =>
        let s3 := pushProcedureName s2 (exprString operator)
        match evalBuiltinFunction evalFn name vals s3 with
        | (.error err, s4) =>
          let (pname, s5) := popProcedureName s4
          (.error (.runtime (newRuntimeError err (exprLine operator) pname)), s5)
        | (.ok r, s4) => (.ok r, (popProcedureName s4).2)
      | some (.proc pparams ptail pbody penvId) =>
        let s3 := pushProcedureName s2 (exprString operator)
        match evalProcedure evalFn pparams ptail pbody penvId vals s3 with
        | (.error err, s4) =>
          let (pname, s5) := popProcedureName s4
          (.error (.runtime (newRuntimeError err (exprLine operator) pname)), s5)
        | (.ok r, s4) => (.ok r, (popProcedureName s4).2)
      | some other =>
        (.error (.runtime (newRuntimeError
          (.raw ("unsupported operator type: " ++ typeName other))
          (exprLine operator) (currentProcedureName s2))), s2)
      | none =>
        (.error (.runtime (newRuntimeError (.raw "invalid value address")
          (exprLine operator) (currentProcedureName s2))), s2)

/-- evalIfExpression: only the false constant selects the alternative
(everything else is truthy); a missing alternative yields a fresh
void; errors from the predicate and the chosen branch are wrapped with
that expression's token line. -/
def evalIfExpression (evalFn : EvalFn) (pred conseq : Expr) (alt : Option Expr)
    (env : Nat) (s : EvalState) : Except EvalError Nat × EvalState :=
  match evalFn pred env s with
  | (.error err, s1) =>
    (.error (.runtime (newRuntimeError err (exprLine pred) (currentProcedureName s1))), s1)
  | (.ok c, s1) =>
    if isFalseCell s1 c then
      match alt with
      | some altE =>
        match evalFn altE env s1 with
        | (.error err, s2) =>
          (.error (.runtime (newRuntimeError err (exprLine altE) (currentProcedureName s2))), s2)
        | (.ok r, s2) => (.ok r, s2)
      | none => allocOk s1 (.const .VoidConst)
    else
      match evalFn conseq env s1 with
      | (.error err, s2) =>
        (.error (.runtime (newRuntimeError err (exprLine conseq) (currentProcedureName s2))), s2)
      | (.ok r, s2) => (.ok r, s2)

/-- evalListExpression: evaluate the elements left to right and build
a FRESH List cell. -/
def evalListLoop (evalFn : EvalFn) : List Expr → List Nat → Nat → EvalState →
    Except EvalError Nat × EvalState
  | [], acc, _, s => allocOk s (.list acc)
  | e :: rest, acc, env, s =>
    match evalFn e env s with
    | (.error err, s1) => (.error err, s1)
    | (.ok v, s1) => evalListLoop evalFn rest (acc ++ [v]) env s1

/-- evalBeginExpression: evaluate the forms in order, returning the
last (the Go loop panics unreachable for an empty form list, which
the parser rules out). -/
def evalBeginLoop (evalFn : EvalFn) : List Expr → Nat → EvalState →
    Except EvalError Nat × EvalState
  | [], _, s => (.error (.raw "panic: unreachable"), s)
  | [e], env, s => evalFn e env s
  | e :: rest, env, s =>
    match evalFn e env s with
    | (.error err, s1) => (.error err, s1)
    | (.ok _, s1) => evalBeginLoop evalFn rest env s1

/-- eval: dispatch on the expression variant (the cases of the Go type
switch, in source order where possible).  Literals allocate fresh
cells; identifier lookup returns the BOUND address (no copy);
PrimitiveProcedureExpression looks its name up in the environment and
must find a builtin (the Go code panics when the name is absent);
define binds in the current frame; set! evaluates the value, then
updates the innermost frame binding the name and returns the OLD
address.  The fuel argument only bounds recursion depth. -/
def eval (fuel0 : Nat) (exp0 : Expr) (env0 : Nat) (s0 : EvalState) :
    Except EvalError Nat × EvalState :=
  match fuel0, exp0, env0, s0 with
  | 0, _, _, s => (.error .outOfFuel, s)
  | fuel + 1, exp, env, s =>
    match exp with
    | .trueLiteral => allocOk s (.const .TrueValue)
    | .falseLiteral => allocOk s (.const .FalseValue)
    | .voidLiteral => allocOk s (.const .VoidConst)
    | .numberLit n _ => allocOk s (.num n)
    | .stringLit v _ => allocOk s (.str v)
    | .symbolExpr v _ => allocOk s (.sym v)
    | .defineExpr name value _ =>
      match eval fuel value env s with
      | (.error err, s1) => (.error err, s1)
      | (.ok v, s1) => (.ok v, envPut s1 env name v)
    | .identifier name line =>
      match envGet (s.envs.length + 1) s.envs env name with
      | some a => (.ok a, s)
      | none =>
        (.error (.raw ("undefined identifier: `" ++ name ++ "` on line " ++ toString line)), s)
    | .callExpr op operands _ => evalCallExpression (eval fuel) op operands env s
    | .lambdaExpr params tail body _ => allocOk s (.proc params tail body env)
    | .primitive name _ =>
      match envGet (s.envs.length + 1) s.envs env name with
      | none => (.error (.raw ("panic: undefined primitive identifier: " ++ name)), s)
      | some a =>
        match cellAt s a with
        | some (.builtin _) => (.ok a, s)
        | _ => (.error (.raw ("identifier " ++ name ++ " is not a builtin function")), s)
    | .ifExpr pred conseq alt _ => evalIfExpression (eval fuel) pred conseq alt env s
    | .setExpr name value _ =>
      match eval fuel value env s with
      | (.error err, s1) => (.error err, s1)
      | (.ok v, s1) =>
        match envUpdate (s1.envs.length + 1) s1.envs env name v with
        | some (old, envs2) => (.ok old, { s1 with envs := envs2 })
        | none => (.error (.raw ("cant find key " ++ name ++ " to update")), s1)
    | .listExpr elems _ => evalListLoop (eval fuel) elems [] env s
    | .beginExpr exprs _ => evalBeginLoop (eval fuel) exprs env s
termination_by structural fuel0

/-- The top-level program loop of Evaluator.Eval after pushing main:
evaluate the expressions in order in the global environment (index 0),
stopping at the first error and returning the last value. -/
def evalProgramLoop (fuel : Nat) : List Expr → Option Nat → EvalState →
    Except EvalError (Option Nat) × EvalState
  | [], ret, s => (.ok ret, s)
  | e :: rest, _, s =>
    match eval fuel e 0 s with
    | (.error err, s1) => (.error err, s1)
    | (.ok v, s1) => evalProgramLoop fuel rest (some v) s1

/-- Evaluator.Eval: push the synthetic procedure name main, then run
the program (ret stays none for an empty program, where Go returns a
nil value). -/
def evalProgram (fuel : Nat) (exprs : List Expr) (s : EvalState) :
    Except EvalError (Option Nat) × EvalState :=
  evalProgramLoop fuel exprs none (pushProcedureName s "main")

/-- The names this model registers in the global environment (the
subset of the initGlobalEnvironment catalogue the claims exercise),
each bound to a builtin cell. -/
def builtinNames : List String :=
  ["+", "eq?", "and", "or", "not", "cons", "list", "car", "cdr",
   "set-car!", "set-cdr!", "null?", "force"]

/-- The initial interpreter state: cell 0 is the-empty-stream (an
empty List, as in the source), the following cells are the builtins,
and the single environment frame is the global one binding every name
to its cell. -/
def initState : EvalState :=
  { values := .list [] :: builtinNames.map .builtin
    envs := [{ store := ("the-empty-stream", 0) ::
                 (builtinNames.enum.map fun ni => (ni.2, ni.1 + 1))
               enclosing := none }]
    procedureNames := [] }

/-! ## Claims about the evaluator -/

/-- C2: the promise memo fills at most once.  Conjuncts: (i) force on
a non-Promise cell is an error and leaves the state unchanged;
(ii) the first successful force of a Promise with an empty memo
evaluates the captured expression in the captured environment and
rewrites the SAME cell with the memo filled by the result, which it
returns; (iii) force of a Promise with a filled memo returns the
memoized address with the state untouched -- the expression is not
evaluated again, so the memo slot transitions from empty to filled at
most once. -/
theorem C2_theorem :
    (∀ (evalFn : EvalFn) (s : EvalState) (a : Nat) (v : ValueData),
      cellAt s a = some v →
      (∀ e env memo, v ≠ .promise e env memo) →
      forceGo evalFn a s =
        (.error (.raw ("expected promise type, got " ++ typeName v)), s)) ∧
    (∀ (evalFn : EvalFn) (s : EvalState) (a : Nat) (e : Expr) (env r : Nat)
        (s1 : EvalState),
      cellAt s a = some (.promise e env none) →
      evalFn e env s = (.ok r, s1) →
      forceGo evalFn a s = (.ok r, updateCell s1 a (.promise e env (some r)))) ∧
    (∀ (evalFn : EvalFn) (s : EvalState) (a : Nat) (e : Expr) (env m : Nat),
      cellAt s a = some (.promise e env (some m)) →
      forceGo evalFn a s = (.ok m, s)) := by
  refine ⟨?_, ?_, ?_⟩
  · intro evalFn s a v hcell hnp
    cases v with
    | promise e env memo => exact absurd rfl (hnp e env memo)
    | num n => simp [forceGo, hcell, typeName]
    | str x => simp [forceGo, hcell, typeName]
    | sym x => simp [forceGo, hcell, typeName]
    | const c => simp [forceGo, hcell, typeName]
    | proc a b c d => simp [forceGo, hcell, typeName]
    | builtin n => simp [forceGo, hcell, typeName]
    | list es => simp [forceGo, hcell, typeName]
    | cons x y => simp [forceGo, hcell, typeName]
  · intro evalFn s a e env r s1 hcell heval
    simp [forceGo, hcell, heval]
  · intro evalFn s a e env m hcell
    simp [forceGo, hcell]

/-- The promise state used by the C2 witness: the initial state plus
one promise cell capturing the literal 7 and the global frame. -/
def c2State : EvalState :=
  { initState with values :=
      initState.values ++ [.promise (.numberLit (.i64 7) 1) 0 none] }

/-- C2, witness: the three conjuncts at concrete inputs (a number cell
is not a promise; forcing the 7-promise fills the memo with the fresh
7-cell; forcing the filled promise returns the memo unchanged). -/
theorem C2_witness :
    (forceGo (eval 5) 1 c2State =
      (.error (.raw "expected promise type, got BuiltinFunction"), c2State)) ∧
    (forceGo (eval 5) 14 c2State =
      (.ok 15, updateCell { c2State with values := c2State.values ++ [.num (.i64 7)] }
        14 (.promise (.numberLit (.i64 7) 1) 0 (some 15)))) ∧
    (forceGo (eval 5) 14
        (updateCell c2State 14 (.promise (.numberLit (.i64 7) 1) 0 (some 9))) =
      (.ok 9, updateCell c2State 14 (.promise (.numberLit (.i64 7) 1) 0 (some 9)))) := by
  refine ⟨?_, ?_, ?_⟩
  · exact C2_theorem.1 (eval 5) c2State 1 (.builtin "+") rfl (by intro e env memo h; cases h)
  · exact C2_theorem.2.1 (eval 5) c2State 14 (.numberLit (.i64 7) 1) 0 15
      { c2State with values := c2State.values ++ [.num (.i64 7)] } rfl (by rfl)
  · exact C2_theorem.2.2 (eval 5)
      (updateCell c2State 14 (.promise (.numberLit (.i64 7) 1) 0 (some 9)))
      14 (.numberLit (.i64 7) 1) 0 9 rfl

/-- C3: set-cdr! on a non-empty List cell rewrites THAT cell in place
into a Cons whose car is the list's first element and whose cdr is the
second argument; the result of the builtin is a fresh void cell; every
other existing cell is untouched, so the mutation is visible through
every alias of the mutated address. -/
theorem C3_theorem (s : EvalState) (l y e : Nat) (rest : List Nat)
    (h : cellAt s l = some (.list (e :: rest))) :
    setCdrFn [l, y] s =
      (.ok s.values.length,
       { s with values := (s.values.set l (.cons e y)) ++ [.const .VoidConst] }) ∧
    cellAt (setCdrFn [l, y] s).2 l = some (.cons e y) ∧
    (∀ a, a ≠ l → a < s.values.length →
      cellAt (setCdrFn [l, y] s).2 a = cellAt s a) := by
  have hl : l < s.values.length := by
    rcases List.get?_eq_some.mp h with ⟨hlt, _⟩
    exact hlt
  have hmain : setCdrFn [l, y] s =
      (.ok s.values.length,
       { s with values := (s.values.set l (.cons e y)) ++ [.const .VoidConst] }) := by
    simp [setCdrFn, h, allocOk, alloc, updateCell]
  refine ⟨hmain, ?_, ?_⟩
  · rw [hmain]
    have hl2 : l < (s.values.set l (.cons e y)).length := by
      simpa using hl
    simp [cellAt, List.getElem?_append_left hl2, List.getElem?_set_eq_of_lt _ hl]
  · intro a ha hlt
    rw [hmain]
    have hl2 : a < (s.values.set l (.cons e y)).length := by
      simpa using hlt
    simp [cellAt, List.getElem?_append_left hl2, List.getElem?_set_ne (Ne.symm ha)]

/-- The state used by the C3 witness: cell 1 is the list (4). -/
def c3State : EvalState :=
  { values := [.num (.i64 4), .list [0]], envs := [], procedureNames := [] }

/-- C3, witness: set-cdr! turns cell 1 into (0 . 0) in place. -/
theorem C3_witness :
    setCdrFn [1, 0] c3State =
      (.ok 2, { c3State with values := [.num (.i64 4), .cons 0 0, .const .VoidConst] }) ∧
    cellAt (setCdrFn [1, 0] c3State).2 1 = some (.cons 0 0) ∧
    cellAt (setCdrFn [1, 0] c3State).2 0 = some (.num (.i64 4)) := by
  have h := C3_theorem c3State 1 0 0 [] rfl
  exact ⟨h.1, h.2.1, h.2.2 0 (by decide) (by decide)⟩

/-- C4: cons with a List second argument (empty included) builds a
fresh List whose elements are the first argument followed by the
list's elements; with any non-List second argument it builds a fresh
Cons cell of the two addresses. -/
theorem C4_theorem (s : EvalState) (x y : Nat) :
    (∀ elems, cellAt s y = some (.list elems) →
      consFn [x, y] s =
        (.ok s.values.length, { s with values := s.values ++ [.list (x :: elems)] })) ∧
    (∀ v, cellAt s y = some v → (∀ elems, v ≠ .list elems) →
      consFn [x, y] s =
        (.ok s.values.length, { s with values := s.values ++ [.cons x y] })) := by
  constructor
  · intro elems h
    cases elems with
    | nil => simp [consFn, h, allocOk, alloc]
    | cons e0 rest => simp [consFn, h, allocOk, alloc]
  · intro v h hnl
    cases v with
    | list es => exact absurd rfl (hnl es)
    | num n => simp [consFn, h, allocOk, alloc]
    | str a => simp [consFn, h, allocOk, alloc]
    | sym a => simp [consFn, h, allocOk, alloc]
    | const c => simp [consFn, h, allocOk, alloc]
    | proc a b c d => simp [consFn, h, allocOk, alloc]
    | builtin n => simp [consFn, h, allocOk, alloc]
    | cons a b => simp [consFn, h, allocOk, alloc]
    | promise a b c => simp [consFn, h, allocOk, alloc]

/-- The two-cell state used by the C4 witness. -/
def c4State : EvalState :=
  { values := [.list [], .num (.i64 2)], envs := [], procedureNames := [] }

/-- C4, witness: cons onto the empty List prepends; cons onto a
number builds a Cons cell. -/
theorem C4_witness :
    consFn [1, 0] c4State =
      (.ok 2, { c4State with values := c4State.values ++ [.list [1]] }) ∧
    consFn [0, 1] c4State =
      (.ok 2, { c4State with values := c4State.values ++ [.cons 0 1] }) := by
  constructor
  · exact (C4_theorem c4State 1 0).1 [] rfl
  · exact (C4_theorem c4State 0 1).2 (.num (.i64 2)) rfl (by intro elems h; cases h)

/-- The two-integer state used by the C5 counterexample and witness. -/
def c5State : EvalState :=
  { values := [.num (.i64 1), .num (.i64 2)], envs := [], procedureNames := [] }

/-- C5, counterexample.  The + builtin sums in float64 and returns
MakeFloat64Number unconditionally: with no arguments the result is the
FLOAT64-represented 0 (not an int64-represented integer 0), and 1 + 2
yields the float64-represented 3, so integer/integer addition does NOT
stay integer. -/
theorem C5_counterexample :
    plusFn [] c5State =
      (.ok 2, { c5State with values := c5State.values ++ [.num (.f64 0)] }) ∧
    GoNum.isInt64 (.f64 0) = false ∧
    plusFn [0, 1] c5State =
      (.ok 2, { c5State with values := c5State.values ++ [.num (.f64 3)] }) ∧
    GoNum.isInt64 (.f64 3) = false := by
  have he : (0 : Rat) + (GoNum.i64 1).Float64 + (GoNum.i64 2).Float64 = 3 := by
    norm_num [GoNum.Float64]
  have h2 : plusFn [0, 1] c5State =
      (.ok 2, { c5State with values := c5State.values ++
        [.num (.f64 ((0 : Rat) + (GoNum.i64 1).Float64 + (GoNum.i64 2).Float64))] }) := rfl
  rw [he] at h2
  exact ⟨rfl, rfl, h2, rfl⟩

/-- The accumulating sum of plusSum equals a fold over the numbers. -/
theorem plusSum_ok (s : EvalState) (params : List Nat) (ns : List GoNum)
    (h : params.map (cellAt s) = ns.map (fun n => some (.num n))) :
    ∀ acc, plusSum s params acc =
      .ok (ns.foldl (fun a n => a + n.Float64) acc) := by
  induction params generalizing ns with
  | nil =>
    cases ns with
    | nil => intro acc; simp [plusSum]
    | cons n ns => intro acc; simp at h
  | cons p rest ih =>
    cases ns with
    | nil => intro acc; simp at h
    | cons n ns =>
      intro acc
      simp only [List.map_cons, List.cons.injEq] at h
      obtain ⟨h1, h2⟩ := h
      simp [plusSum, h1, ih ns h2]

/-- C5, amended: + called on any vector of Number cells returns a
fresh Number cell tagged float64 holding the float64 sum of the
arguments (float64(0) for the empty vector); the result is never an
int64-represented Number. -/
theorem C5_theorem (s : EvalState) (params : List Nat) (ns : List GoNum)
    (h : params.map (cellAt s) = ns.map (fun n => some (.num n))) :
    plusFn params s =
      (.ok s.values.length,
       { s with values := s.values ++
          [.num (.f64 (ns.foldl (fun a n => a + n.Float64) 0))] }) ∧
    GoNum.isInt64 (.f64 (ns.foldl (fun a n => a + n.Float64) 0)) = false := by
  constructor
  · simp [plusFn, plusSum_ok s params ns h 0, allocOk, alloc, MakeFloat64Number]
  · rfl

/-- C5, witness: the amended claim at the concrete integer vector
1, 2, whose float64 sum is 3. -/
theorem C5_witness :
    plusFn [0, 1] c5State =
      (.ok 2, { c5State with values := c5State.values ++ [.num (.f64 3)] }) ∧
    GoNum.isInt64 (.f64 ([GoNum.i64 1, GoNum.i64 2].foldl (fun a n => a + n.Float64) 0)) =
      false := by
  have h := C5_theorem c5State [0, 1] [.i64 1, .i64 2] rfl
  have he : ([GoNum.i64 1, GoNum.i64 2].foldl (fun a n => a + n.Float64) 0) = (3 : Rat) := by
    norm_num [GoNum.Float64]
  constructor
  · have h1 := h.1
    rw [he] at h1
    simpa [c5State] using h1
  · exact h.2

/-- C9: evaluating a set! expression first evaluates the value, then
updates the innermost frame up the chain that binds the name and
returns the OLD address -- the value the variable held before the
update, not the new value and not void. -/
theorem C9_theorem (fuel : Nat) (name : String) (valueE : Expr) (line env : Nat)
    (s s1 : EvalState) (v old : Nat) (envs2 : List EnvData)
    (hv : eval fuel valueE env s = (.ok v, s1))
    (hu : envUpdate (s1.envs.length + 1) s1.envs env name v = some (old, envs2)) :
    eval (fuel + 1) (.setExpr name valueE line) env s = (.ok old, { s1 with envs := envs2 }) := by
  simp [eval, hv, hu]

/-- The one-binding state of the C9 witness: x is bound to cell 0
holding the integer 1. -/
def c9State : EvalState :=
  { values := [.num (.i64 1)], envs := [{ store := [("x", 0)], enclosing := none }],
    procedureNames := [] }

/-- C9, witness: (set! x 2) in a frame binding x to 1 returns the old
cell, which still holds 1, while the frame now binds x to the fresh
2-cell. -/
theorem C9_witness :
    eval 2 (.setExpr "x" (.numberLit (.i64 2) 1) 1) 0 c9State =
      (.ok 0, { values := [.num (.i64 1), .num (.i64 2)],
                envs := [{ store := [("x", 1)], enclosing := none }],
                procedureNames := [] }) ∧
    cellAt c9State 0 = some (.num (.i64 1)) := by
  constructor
  · exact C9_theorem 1 "x" (.numberLit (.i64 2) 1) 1 0 c9State
      { c9State with values := c9State.values ++ [.num (.i64 2)] }
      1 0 [{ store := [("x", 1)], enclosing := none }] (by rfl) (by rfl)
  · rfl

/-- C10: eq? answers #t on two distinct addresses that both hold an
empty List (the pointer-equality fast path misses, and the ListType
branch accepts any two empty lists); yet the empty list is not one
shared object: every evaluation of the list expression for a quoted
empty list allocates a fresh cell (at the current top of the value
store, an address holding nothing beforehand), and so does the list
builtin with no arguments. -/
theorem C10_theorem :
    (∀ (s : EvalState) (a b : Nat), a ≠ b →
      cellAt s a = some (.list []) → cellAt s b = some (.list []) →
      eqFn [a, b] s =
        (.ok s.values.length, { s with values := s.values ++ [.const .TrueValue] })) ∧
    (∀ (fuel env line : Nat) (s : EvalState),
      eval (fuel + 1) (.listExpr [] line) env s =
        (.ok s.values.length, { s with values := s.values ++ [.list []] }) ∧
      cellAt s s.values.length = none) ∧
    (∀ s : EvalState, listFn [] s =
      (.ok s.values.length, { s with values := s.values ++ [.list []] })) := by
  refine ⟨?_, ?_, ?_⟩
  · intro s a b hab ha hb
    simp [eqFn, hab, ha, hb, allocOk, alloc]
  · intro fuel env line s
    constructor
    · simp [eval, evalListLoop, allocOk, alloc]
    · simp [cellAt]
  · intro s
    simp [listFn, allocOk, alloc]

/-- The two-empty-list state of the C10 witness. -/
def c10State : EvalState :=
  { values := [.list [], .list []], envs := [], procedureNames := [] }

/-- C10, witness: eq? on the two distinct empty-list cells answers #t,
and evaluating an empty list expression in that state allocates the
fresh cell 2. -/
theorem C10_witness :
    eqFn [0, 1] c10State =
      (.ok 2, { c10State with values := c10State.values ++ [.const .TrueValue] }) ∧
    eval 1 (.listExpr [] 1) 0 c10State =
      (.ok 2, { c10State with values := c10State.values ++ [.list []] }) ∧
    cellAt c10State 2 = none ∧
    listFn [] c10State =
      (.ok 2, { c10State with values := c10State.values ++ [.list []] }) := by
  refine ⟨?_, ?_, ?_, ?_⟩
  · exact C10_theorem.1 c10State 0 1 (by decide) rfl rfl
  · exact (C10_theorem.2.1 0 0 1 c10State).1
  · exact (C10_theorem.2.1 0 0 1 c10State).2
  · exact C10_theorem.2.2 c10State

/-- Folding newRuntimeError over a propagation chain: each pair is the
token line and procedure name one wrapping layer passes. -/
def wrapChain (e : EvalError) : List (Nat × String) → EvalError
  | [] => e
  | (line, name) :: rest => wrapChain (.runtime (newRuntimeError e line name)) rest

theorem wrapChain_runtime_eq (w : List (Nat × String)) (re : RuntimeError) :
    wrapChain (.runtime re) w = .runtime
      { rawErrorMessage := re.rawErrorMessage
        lineNumber := (re.lineNumber :: w.map Prod.fst).getLast (by simp)
        stackTrace := re.stackTrace ++
          List.zipWith (fun l p => { lineNumber := l, identifierName := p })
            (re.lineNumber :: w.map Prod.fst).dropLast (w.map Prod.snd) } := by
  induction w generalizing re with
  | nil => simp [wrapChain]
  | cons hd tl ih =>
    obtain ⟨l, p⟩ := hd
    rw [wrapChain, ih]
    congr 1
    have hlast : ∀ x y : Nat, ∀ zs : List Nat,
        (x :: y :: zs).getLast (by simp) = (y :: zs).getLast (by simp) := by
      intro x y zs
      exact List.getLast_cons (by simp)
    simp only [newRuntimeError, errMessage, List.map_cons]
    refine congrArg₂ (fun a b => RuntimeError.mk re.rawErrorMessage a b) ?_ ?_
    · exact (hlast re.lineNumber l (tl.map Prod.fst)).symm
    · rw [List.dropLast_cons₂, List.zipWith_cons_cons]
      simp [List.append_assoc]

/-- C6, amended.  A plain error wrapped through a chain of k layers
(each supplying its operator-token line and its current procedure
name) produces a RuntimeError that preserves the raw message, records
the LAST layer's token line, and accumulates exactly k - 1 frames,
outermost last: the innermost wrap contributes NO frame (its
procedure name is dropped), and the frame added by each later layer
pairs that layer's procedure name with the PREVIOUS layer's recorded
line (the failing expression's line).  The synthetic main frame is
appended by the driver's printer as the final line, built from the
outermost recorded line. -/
theorem C6_theorem (msg : String) (l1 : Nat) (p1 : String) (rest : List (Nat × String)) :
    wrapChain (.raw msg) ((l1, p1) :: rest) = .runtime
      { rawErrorMessage := msg
        lineNumber := (l1 :: rest.map Prod.fst).getLast (by simp)
        stackTrace := List.zipWith (fun l p => { lineNumber := l, identifierName := p })
          (l1 :: rest.map Prod.fst).dropLast (rest.map Prod.snd) } ∧
    (List.zipWith (fun l p => StackTraceElement.mk l p)
      (l1 :: rest.map Prod.fst).dropLast (rest.map Prod.snd)).length = rest.length ∧
    (∀ re : RuntimeError, (printStackTrace re).getLast? =
      some ("\t at main (line " ++ toString re.lineNumber ++ ")")) := by
  refine ⟨?_, ?_, ?_⟩
  · rw [wrapChain, wrapChain_runtime_eq]
    simp [newRuntimeError, errMessage]
  · have h1 : (l1 :: rest.map Prod.fst).dropLast.length = rest.length := by
      simp
    simp [h1]
  · intro re
    simp [printStackTrace]

/-- Specification-side relation for C1: evaluating the expressions
left to right with evalFn threads the state from s to s2 and collects
the value addresses; every value is the false constant in the state
that produced it. -/
inductive EvalsFalse (evalFn : EvalFn) (env : Nat) :
    List Expr → EvalState → List Nat → EvalState → Prop
  | nil (s : EvalState) : EvalsFalse evalFn env [] s [] s
  | cons {e : Expr} {es : List Expr} {s s1 s2 : EvalState} {a : Nat} {vals : List Nat} :
      evalFn e env s = (.ok a, s1) →
      isFalseCell s1 a = true →
      EvalsFalse evalFn env es s1 vals s2 →
      EvalsFalse evalFn env (e :: es) s (a :: vals) s2

/-- As EvalsFalse, but every value is NOT the false constant. -/
inductive EvalsTruthy (evalFn : EvalFn) (env : Nat) :
    List Expr → EvalState → List Nat → EvalState → Prop
  | nil (s : EvalState) : EvalsTruthy evalFn env [] s [] s
  | cons {e : Expr} {es : List Expr} {s s1 s2 : EvalState} {a : Nat} {vals : List Nat} :
      evalFn e env s = (.ok a, s1) →
      isFalseCell s1 a = false →
      EvalsTruthy evalFn env es s1 vals s2 →
      EvalsTruthy evalFn env (e :: es) s (a :: vals) s2

theorem evalOperandsLoop_false_front (evalFn : EvalFn) (env opLine : Nat)
    {pre : List Expr} {s s1 : EvalState} {vals : List Nat}
    (h : EvalsFalse evalFn env pre s vals s1) :
    ∀ (rest : List Expr) (acc : List Nat),
    evalOperandsLoop evalFn true false opLine env (pre ++ rest) acc s =
    evalOperandsLoop evalFn true false opLine env rest (acc ++ vals) s1 := by
  induction h with
  | nil s => intro rest acc; simp
  | cons he hf _ ih =>
    intro rest acc
    rw [List.cons_append]
    rw [evalOperandsLoop, he]
    simp only [hf, Bool.true_and, Bool.false_and, Bool.not_true, if_false, ite_false,
      Bool.false_eq_true, if_false]
    rw [ih rest (acc ++ [_])]
    simp

theorem evalOperandsLoop_truthy_front (evalFn : EvalFn) (env opLine : Nat)
    {pre : List Expr} {s s1 : EvalState} {vals : List Nat}
    (h : EvalsTruthy evalFn env pre s vals s1) :
    ∀ (rest : List Expr) (acc : List Nat),
    evalOperandsLoop evalFn false true opLine env (pre ++ rest) acc s =
    evalOperandsLoop evalFn false true opLine env rest (acc ++ vals) s1 := by
  induction h with
  | nil s => intro rest acc; simp
  | cons he hf _ ih =>
    intro rest acc
    rw [List.cons_append]
    rw [evalOperandsLoop, he]
    simp only [hf, Bool.true_and, Bool.false_and, Bool.not_false, if_false, ite_false,
      Bool.false_eq_true, if_false, if_true]
    rw [ih rest (acc ++ [_])]
    simp

/-- The or builtin body on an all-false vector: a fresh #f. -/
theorem orFn_allFalse {s : EvalState} {vals : List Nat}
    (h : ∀ v ∈ vals, isFalseCell s v = true) :
    orFn vals s = (.ok s.values.length, { s with values := s.values ++ [.const .FalseValue] }) := by
  induction vals with
  | nil => simp [orFn, allocOk, alloc]
  | cons v rest ih =>
    have hv := h v (by simp)
    rw [orFn]
    simp only [hv, Bool.not_true, Bool.false_eq_true, if_false, ite_false]
    exact ih (fun w hw => h w (by simp [hw]))

/-- The and loop on an all-truthy vector returns the last value with
the state untouched. -/
theorem andLoop_last {s : EvalState} {vals : List Nat} {lastV : Nat}
    (h : ∀ v ∈ vals, isFalseCell s v = false) (hl : vals.getLast? = some lastV) :
    ∀ t, andLoop vals s t = (.ok lastV, s) := by
  induction vals generalizing lastV with
  | nil => cases hl
  | cons v rest ih =>
    intro t
    have hv := h v (by simp)
    rw [andLoop]
    simp only [hv, Bool.false_eq_true, if_false, ite_false]
    cases rest with
    | nil =>
      simp at hl
      subst hl
      simp [andLoop]
    | cons w ws =>
      have hl2 : (w :: ws).getLast? = some lastV := by
        rw [List.getLast?_cons_cons] at hl
        exact hl
      exact ih (fun x hx => h x (by simp [hx])) hl2 v

/-- Appending a non-false cell to the value store preserves
non-falseness of every address. -/
theorem isFalseCell_append {s : EvalState} {v : Nat} {w : ValueData}
    (h : isFalseCell s v = false) (hw : w ≠ ValueData.const .FalseValue) :
    isFalseCell { s with values := s.values ++ [w] } v = false := by
  unfold isFalseCell cellAt at *
  simp only [List.get?_eq_getElem?] at *
  rcases Nat.lt_trichotomy v s.values.length with hlt | heq | hgt
  · rw [List.getElem?_append_left hlt]
    exact h
  · subst heq
    rw [List.getElem?_append_right (Nat.le_refl _)]
    simp only [Nat.sub_self, List.getElem?_cons_zero]
    cases w with
    | const c =>
      cases c with
      | FalseValue => exact absurd rfl hw
      | TrueValue => rfl
      | VoidConst => rfl
    | num n => rfl
    | str a => rfl
    | sym a => rfl
    | proc a b c d => rfl
    | builtin n => rfl
    | list es => rfl
    | cons a b => rfl
    | promise a b c => rfl
  · have : (s.values ++ [w])[v]? = none := by
      rw [List.getElem?_eq_none]
      simp
      omega
    rw [this]

/-- C1, amended.  Short-circuit evaluation in evalCallExpression is
keyed on the operator expression PRINTING as or / and together with
the operator value being SOME builtin -- not on the identity of the
or/and builtin (the counterexample aliases or to another name and
loses the short-circuit).  Under that trigger: (i) with operator
string or, operands are evaluated left to right and the call returns
the first value that is not #f, with the state exactly as after that
operand -- the remaining operand expressions contribute nothing;
(ii) when every operand evaluates to #f, the or builtin body receives
the evaluated vector and returns a fresh #f; (iii) with operator
string and, the call returns a fresh #f at the first operand that
evaluates to #f, with the state exactly as after that operand plus the
fresh cell; (iv) when every operand is truthy, the and builtin body
returns the LAST operand's value (allocating one stray #t cell). -/
theorem C1_theorem :
    (∀ (fuel : Nat) (opE : Expr) (line env : Nat) (s s0 : EvalState) (f : Nat)
      (pre : List Expr) (d : Expr) (post : List Expr) (vals : List Nat)
      (s1 : EvalState) (a : Nat) (s2 : EvalState),
      eval fuel opE env s = (.ok f, s0) →
      isBuiltinCell s0 f = true →
      exprString opE = "or" →
      EvalsFalse (eval fuel) env pre s0 vals s1 →
      eval fuel d env s1 = (.ok a, s2) →
      isFalseCell s2 a = false →
      eval (fuel + 1) (.callExpr opE (pre ++ d :: post) line) env s = (.ok a, s2)) ∧
    (∀ (fuel : Nat) (opE : Expr) (line env : Nat) (s s0 : EvalState) (f : Nat)
      (ops : List Expr) (vals : List Nat) (s1 : EvalState),
      eval fuel opE env s = (.ok f, s0) →
      isBuiltinCell s0 f = true →
      cellAt s1 f = some (.builtin "or") →
      exprString opE = "or" →
      EvalsFalse (eval fuel) env ops s0 vals s1 →
      (∀ v ∈ vals, isFalseCell s1 v = true) →
      eval (fuel + 1) (.callExpr opE ops line) env s =
        (.ok s1.values.length, { s1 with values := s1.values ++ [.const .FalseValue] })) ∧
    (∀ (fuel : Nat) (opE : Expr) (line env : Nat) (s s0 : EvalState) (f : Nat)
      (pre : List Expr) (d : Expr) (post : List Expr) (vals : List Nat)
      (s1 : EvalState) (a : Nat) (s2 : EvalState),
      eval fuel opE env s = (.ok f, s0) →
      isBuiltinCell s0 f = true →
      exprString opE = "and" →
      EvalsTruthy (eval fuel) env pre s0 vals s1 →
      eval fuel d env s1 = (.ok a, s2) →
      isFalseCell s2 a = true →
      eval (fuel + 1) (.callExpr opE (pre ++ d :: post) line) env s =
        (.ok s2.values.length, { s2 with values := s2.values ++ [.const .FalseValue] })) ∧
    (∀ (fuel : Nat) (opE : Expr) (line env : Nat) (s s0 : EvalState) (f : Nat)
      (ops : List Expr) (vals : List Nat) (s1 : EvalState) (lastV : Nat),
      eval fuel opE env s = (.ok f, s0) →
      isBuiltinCell s0 f = true →
      cellAt s1 f = some (.builtin "and") →
      exprString opE = "and" →
      EvalsTruthy (eval fuel) env ops s0 vals s1 →
      (∀ v ∈ vals, isFalseCell s1 v = false) →
      vals.getLast? = some lastV →
      eval (fuel + 1) (.callExpr opE ops line) env s =
        (.ok lastV, { s1 with values := s1.values ++ [.const .TrueValue] })) := by
  refine ⟨?_, ?_, ?_, ?_⟩
  · intro fuel opE line env s s0 f pre d post vals s1 a s2 hop hb hstr hpre hd hf
    have hloop : evalOperandsLoop (eval fuel) true false (exprLine opE) env
        (pre ++ d :: post) [] s0 = (.ok (.early a), s2) := by
      rw [evalOperandsLoop_false_front (eval fuel) env (exprLine opE) hpre (d :: post) []]
      rw [evalOperandsLoop, hd]
      simp [hf]
    show evalCallExpression (eval fuel) opE (pre ++ d :: post) env s = _
    rw [evalCallExpression, hop]
    simp only [hstr, hb]
    simp only [show (("or" : String) == "or") = true from rfl,
      show (("or" : String) == "and") = false from rfl, Bool.and_true, Bool.and_false]
    rw [hloop]
  · intro fuel opE line env s s0 f ops vals s1 hop hb hb1 hstr hpre hvals
    have hloop : evalOperandsLoop (eval fuel) true false (exprLine opE) env
        ops [] s0 = (.ok (.done vals), s1) := by
      have h2 := evalOperandsLoop_false_front (eval fuel) env (exprLine opE) hpre [] []
      rw [List.append_nil] at h2
      rw [h2]
      simp [evalOperandsLoop]
    show evalCallExpression (eval fuel) opE ops env s = _
    rw [evalCallExpression, hop]
    simp only [hstr, hb]
    simp only [show (("or" : String) == "or") = true from rfl,
      show (("or" : String) == "and") = false from rfl, Bool.and_true, Bool.and_false]
    rw [hloop]
    simp only [hb1]
    have hor : evalBuiltinFunction (eval fuel) "or" vals (pushProcedureName s1 "or") =
        (.ok (pushProcedureName s1 "or").values.length,
         { pushProcedureName s1 "or" with
           values := (pushProcedureName s1 "or").values ++ [.const .FalseValue] }) := by
      show orFn vals (pushProcedureName s1 "or") = _
      exact orFn_allFalse (fun v hv => hvals v hv)
    rw [hor]
    simp [popProcedureName, pushProcedureName]
  · intro fuel opE line env s s0 f pre d post vals s1 a s2 hop hb hstr hpre hd hf
    have hloop : evalOperandsLoop (eval fuel) false true (exprLine opE) env
        (pre ++ d :: post) [] s0 =
        (.ok (.early s2.values.length), { s2 with values := s2.values ++ [.const .FalseValue] }) := by
      rw [evalOperandsLoop_truthy_front (eval fuel) env (exprLine opE) hpre (d :: post) []]
      rw [evalOperandsLoop, hd]
      simp [hf, alloc]
    show evalCallExpression (eval fuel) opE (pre ++ d :: post) env s = _
    rw [evalCallExpression, hop]
    simp only [hstr, hb]
    simp only [show (("and" : String) == "or") = false from rfl,
      show (("and" : String) == "and") = true from rfl, Bool.and_true, Bool.and_false]
    rw [hloop]
  · intro fuel opE line env s s0 f ops vals s1 lastV hop hb hb1 hstr hpre hvals hlast
    have hloop : evalOperandsLoop (eval fuel) false true (exprLine opE) env
        ops [] s0 = (.ok (.done vals), s1) := by
      have h2 := evalOperandsLoop_truthy_front (eval fuel) env (exprLine opE) hpre [] []
      rw [List.append_nil] at h2
      rw [h2]
      simp [evalOperandsLoop]
    show evalCallExpression (eval fuel) opE ops env s = _
    rw [evalCallExpression, hop]
    simp only [hstr, hb]
    simp only [show (("and" : String) == "or") = false from rfl,
      show (("and" : String) == "and") = true from rfl, Bool.and_true, Bool.and_false]
    rw [hloop]
    simp only [hb1]
    have hand : evalBuiltinFunction (eval fuel) "and" vals (pushProcedureName s1 "and") =
        (.ok lastV,
         { pushProcedureName s1 "and" with
           values := (pushProcedureName s1 "and").values ++ [.const .TrueValue] }) := by
      show andFn vals (pushProcedureName s1 "and") = _
      rw [andFn]
      simp only [alloc]
      refine andLoop_last (fun v hv => ?_) hlast _
      exact @isFalseCell_append (pushProcedureName s1 "and") v
        (ValueData.const .TrueValue) (hvals v hv) (by simp)
    rw [hand]
    simp [popProcedureName, pushProcedureName]

/-- The or-aliasing program of the C1 counterexample:
(define foo or) (foo 1 UNDEF). -/
def c1Program : List Expr :=
  [.defineExpr "foo" (.primitive "or" 1) 1,
   .callExpr (.identifier "foo" 2) [.numberLit (.i64 1) 2, .identifier "UNDEF" 2] 2]

/-- C1, counterexample.  The operator foo evaluates to the very
builtin registered under the name or (the same cell, address 4 of the
global store), yet the call (foo 1 UNDEF) evaluates ALL operands
eagerly -- the evaluator keys the short-circuit on the operator's
printed string, not on the builtin's identity -- and fails on the
undefined identifier instead of returning 1. -/
theorem C1_counterexample :
    (evalProgram 10 c1Program initState).1 =
      .error (.runtime { rawErrorMessage := "undefined identifier: `UNDEF` on line 2"
                         lineNumber := 2
                         stackTrace := [] }) ∧
    (eval 9 (.identifier "foo" 2) 0
      (evalProgram 10 [.defineExpr "foo" (.primitive "or" 1) 1] initState).2).1 = .ok 4 ∧
    cellAt (evalProgram 10 [.defineExpr "foo" (.primitive "or" 1) 1] initState).2 4 =
      some (.builtin "or") := by
  exact ⟨rfl, rfl, rfl⟩

/-- Intermediate states of the C1 witness: one fresh #f cell, and one
or two fresh number cells, over the initial state. -/
def c1s1 : EvalState := { initState with values := initState.values ++ [.const .FalseValue] }

def c1s2 : EvalState := { c1s1 with values := c1s1.values ++ [.num (.i64 1)] }

def c1A : EvalState := { initState with values := initState.values ++ [.num (.i64 1)] }

def c1B : EvalState := { c1A with values := c1A.values ++ [.num (.i64 2)] }

/-- C1, witness: the four amended behaviors at concrete calls --
(or #f 1 UNDEF) returns the 1-cell without touching UNDEF,
(or #f) returns a fresh #f, (and 1 #f UNDEF) returns a fresh #f
without touching UNDEF, and (and 1 2) returns the 2-cell. -/
theorem C1_witness :
    (eval 4 (.callExpr (.primitive "or" 1)
        [.falseLiteral, .numberLit (.i64 1) 1, .identifier "UNDEF" 1] 1) 0 initState =
      (.ok 15, c1s2)) ∧
    (eval 4 (.callExpr (.primitive "or" 1) [.falseLiteral] 1) 0 initState =
      (.ok 15, { c1s1 with values := c1s1.values ++ [.const .FalseValue] })) ∧
    (eval 4 (.callExpr (.primitive "and" 1)
        [.numberLit (.i64 1) 1, .falseLiteral, .identifier "UNDEF" 1] 1) 0 initState =
      (.ok 16, { c1A with values := c1A.values ++ [.const .FalseValue, .const .FalseValue] })) ∧
    (eval 4 (.callExpr (.primitive "and" 1)
        [.numberLit (.i64 1) 1, .numberLit (.i64 2) 1] 1) 0 initState =
      (.ok 15, { c1B with values := c1B.values ++ [.const .TrueValue] })) := by
  refine ⟨?_, ?_, ?_, ?_⟩
  · have h := C1_theorem.1 3 (.primitive "or" 1) 1 0 initState initState 4
      [.falseLiteral] (.numberLit (.i64 1) 1) [.identifier "UNDEF" 1] [14] c1s1 15 c1s2
      (by rfl) rfl rfl
      (@EvalsFalse.cons (eval 3) 0 .falseLiteral [] initState c1s1 c1s1 14 []
        (by rfl) rfl (EvalsFalse.nil c1s1))
      (by rfl) rfl
    exact h
  · have h := C1_theorem.2.1 3 (.primitive "or" 1) 1 0 initState initState 4
      [.falseLiteral] [14] c1s1
      (by rfl) rfl rfl rfl
      (@EvalsFalse.cons (eval 3) 0 .falseLiteral [] initState c1s1 c1s1 14 []
        (by rfl) rfl (EvalsFalse.nil c1s1))
      (by intro v hv; simp at hv; subst hv; rfl)
    simpa [c1s1] using h
  · have h := C1_theorem.2.2.1 3 (.primitive "and" 1) 1 0 initState initState 3
      [.numberLit (.i64 1) 1] .falseLiteral [.identifier "UNDEF" 1] [14] c1A 15
      { c1A with values := c1A.values ++ [.const .FalseValue] }
      (by rfl) rfl rfl
      (@EvalsTruthy.cons (eval 3) 0 (.numberLit (.i64 1) 1) [] initState c1A c1A 14 []
        (by rfl) rfl (EvalsTruthy.nil c1A))
      (by rfl) rfl
    simpa [c1A] using h
  · have h := C1_theorem.2.2.2 3 (.primitive "and" 1) 1 0 initState initState 3
      [.numberLit (.i64 1) 1, .numberLit (.i64 2) 1] [14, 15] c1B 15
      (by rfl) rfl rfl rfl
      (@EvalsTruthy.cons (eval 3) 0 (.numberLit (.i64 1) 1) [.numberLit (.i64 2) 1]
        initState c1A c1B 14 [15] (by rfl) rfl
        (@EvalsTruthy.cons (eval 3) 0 (.numberLit (.i64 2) 1) [] c1A c1B c1B 15 []
          (by rfl) rfl (EvalsTruthy.nil c1B)))
      (by intro v hv; simp at hv; rcases hv with h | h <;> subst h <;> rfl)
      rfl
    exact h

/-- The nested-failure program of the C6 counterexample:
(define g (lambda () undefined-var))
(define f (lambda () (g)))
(f) -/
def c6Program : List Expr :=
  [.defineExpr "g" (.lambdaExpr [] "" [.identifier "undefined-var" 1] 1) 1,
   .defineExpr "f" (.lambdaExpr [] "" [.callExpr (.identifier "g" 2) [] 2] 2) 2,
   .callExpr (.identifier "f" 3) [] 3]

/-- C6, counterexample.  The inner error propagates through TWO
failing call layers (the call of g inside f and the top-level call of
f), yet the resulting stack trace holds exactly ONE frame -- the
innermost wrap added none, and no frame names g -- contradicting one
frame per evaluator layer. -/
theorem C6_counterexample :
    (evalProgram 10 c6Program initState).1 =
      .error (.runtime
        { rawErrorMessage := "undefined identifier: `undefined-var` on line 1"
          lineNumber := 3
          stackTrace := [{ lineNumber := 2, identifierName := "f" }] }) ∧
    ([{ lineNumber := 2, identifierName := "f" }] : List StackTraceElement).length = 1 := by
  exact ⟨rfl, rfl⟩

end Soup
